import Mathlib

/-!
Shallow embedding of the primor repository (src/app.py, the grid-combat
variant, and src/server.py, the colony variant), together with proofs of
the spec's claims about it.

Randomness (`random.randint`, `uuid4`, `secrets.token_hex`,
`random.choice`) is modelled by passing the drawn values as explicit
parameters; a draw `random.randint(0, n-1)` is modelled as `r % n` for an
arbitrary `r : Nat`, which ranges over exactly the values the source can
draw.
-/

namespace App

/-- Grid width, `MAP_WIDTH = 12` in app.py. -/
def MAP_WIDTH : Nat := 12

/-- Grid height, `MAP_HEIGHT = 8` in app.py. -/
def MAP_HEIGHT : Nat := 8

/-- Number of bots spawned on first connect, `BOT_COUNT = 4`. -/
def BOT_COUNT : Nat := 4

/-- `PlayerState` dataclass of app.py.  The `created_at` timestamp is a
write-once metadata string never read by any handler and is omitted. -/
structure PlayerState where
  player_id : String
  mutations : List String := []
  biomass : Int := 1
  hp : Int := 10
  x : Int := 0
  y : Int := 0
  is_bot : Bool := false
  display_name : String := "Вы"
deriving DecidableEq, Repr

/-- `PLAYERS` is a Python dict keyed by `player_id` (every insertion uses
the state's own `player_id` as key), modelled as an insertion-ordered list
of `PlayerState`.  `pget` is dict lookup: the first entry with the id. -/
def pget : List PlayerState → String → Option PlayerState
  | [], _ => none
  | p :: rest, pid => if p.player_id = pid then some p else pget rest pid

/-- Dict assignment `PLAYERS[v.player_id] = v`: replace the first entry
with that id in place (keeping insertion order), else append. -/
def pset : List PlayerState → PlayerState → List PlayerState
  | [], v => [v]
  | p :: rest, v =>
      if p.player_id = v.player_id then v :: rest else p :: pset rest v

/-- Dict `PLAYERS.pop(pid)`: remove the first entry with the id. -/
def premove : List PlayerState → String → List PlayerState
  | [], _ => []
  | p :: rest, pid => if p.player_id = pid then rest else p :: premove rest pid

/-- `GLOBAL_STATE["global_mutations"]` is a Python dict `str -> int`,
modelled as an insertion-ordered association list; `hget` is lookup with
default 0 (the dict never stores a key it has not bumped). -/
def hget : List (String × Nat) → String → Nat
  | [], _ => 0
  | (k, v) :: rest, m => if k = m then v else hget rest m

/-- `GLOBAL_STATE["global_mutations"].setdefault(m, 0)` followed by
`+= 1`: bump the first entry with the key, else append `(m, 1)`. -/
def hbump : List (String × Nat) → String → List (String × Nat)
  | [], m => [(m, 1)]
  | (k, v) :: rest, m =>
      if k = m then (k, v + 1) :: rest else (k, v) :: hbump rest m

/-- The mutable globals of app.py: `PLAYERS`, `GLOBAL_STATE` (its
`players`, `global_mutations` and `global_biomass` entries; the `map`
entry is the constant `{width: 12, height: 8}`), and `BOT_TASK_STARTED`. -/
structure GridState where
  players : List PlayerState
  playersCount : Nat
  hist : List (String × Nat)
  global_biomass : Int
  bots_started : Bool
deriving DecidableEq, Repr

/-- The state at process start: no players, empty histogram, zero
biomass, bot task not yet started. -/
def initGrid : GridState :=
  { players := [], playersCount := 0, hist := [], global_biomass := 0,
    bots_started := false }

/-- Python truthiness of an optional string field (`payload.get(k)`):
`None` and the empty string are falsy. -/
def truthy : Option String → Option String
  | none => none
  | some s => if s = "" then none else some s

/-- `clamp(value, min_value, max_value) = max(min_value, min(max_value, value))`. -/
def clamp (value min_value max_value : Int) : Int :=
  max min_value (min max_value value)

/-- `random.randint(0, bound - 1)` modelled as `r % bound` for an
arbitrary drawn `r`. -/
def randpos (r bound : Nat) : Int := ((r % bound : Nat) : Int)

/-- `direction_to_delta`: the four unit vectors, anything else `(0, 0)`. -/
def direction_to_delta (direction : String) : Int × Int :=
  if direction = "up" then (0, -1)
  else if direction = "down" then (0, 1)
  else if direction = "left" then (-1, 0)
  else if direction = "right" then (1, 0)
  else (0, 0)

/-- `find_targets`: every other player within Chebyshev distance 1 of the
attacker, in `PLAYERS` iteration order; we collect their ids (the source
collects the mutable objects themselves). -/
def find_targets (players : List PlayerState) (atk : PlayerState) : List String :=
  (players.filter (fun t =>
    decide (t.player_id ≠ atk.player_id ∧
      (t.x - atk.x).natAbs ≤ 1 ∧ (t.y - atk.y).natAbs ≤ 1))).map
    (fun t => t.player_id)

/-- `respawn`: hp back to 10, position re-randomized (draws `rx ry`). -/
def respawn (p : PlayerState) (rx ry : Nat) : PlayerState :=
  { p with hp := 10, x := randpos rx MAP_WIDTH, y := randpos ry MAP_HEIGHT }

/-- One draw of a bot to spawn in `ensure_bots_running`: its uuid-based
id, its randomly chosen display name, and its two position draws. -/
structure BotDraw where
  bid : String
  name : String
  rx : Nat
  ry : Nat

/-- `ensure_bots_running`: once per server lifetime, insert `BOT_COUNT`
bots and refresh the `players` count. -/
def ensure_bots_running (s : GridState) (bd : Nat → BotDraw) : GridState :=
  if s.bots_started then s
  else
    let players' := ((List.range BOT_COUNT).map bd).foldl
      (fun l d => pset l
        { player_id := d.bid, is_bot := true, display_name := d.name,
          x := randpos d.rx MAP_WIDTH, y := randpos d.ry MAP_HEIGHT }) s.players
    { s with bots_started := true, players := players',
             playersCount := players'.length }

/-- `handle_connect`: id from the `player` query arg if truthy else a
fresh uuid; the new `PlayerState` is assigned into `PLAYERS` (dict
assignment: an existing binding at that id is replaced); `players` count
refreshed; `global_biomass += biomass`; bots lazily spawned.  The Bool is
whether a world broadcast was emitted. -/
def handle_connect (s : GridState) (req : Option String) (fresh : String)
    (rx ry : Nat) (bd : Nat → BotDraw) : GridState × Bool :=
  let pid := match truthy req with
    | some r => r
    | none => fresh
  let p : PlayerState :=
    { player_id := pid, x := randpos rx MAP_WIDTH, y := randpos ry MAP_HEIGHT }
  let players' := pset s.players p
  let s1 : GridState :=
    { s with players := players', playersCount := players'.length,
             global_biomass := s.global_biomass + p.biomass }
  (ensure_bots_running s1 bd, true)

/-- `handle_disconnect`: no-op unless the id is truthy and present; else
pop the player, refresh the count, `global_biomass = max(0, gb - biomass)`. -/
def handle_disconnect (s : GridState) (pid? : Option String) : GridState × Bool :=
  match truthy pid? with
  | none => (s, false)
  | some pid =>
    match pget s.players pid with
    | none => (s, false)
    | some p =>
      let players' := premove s.players pid
      ({ s with players := players', playersCount := players'.length,
                global_biomass := max 0 (s.global_biomass - p.biomass) }, true)

/-- `handle_mutate`: no-op if the actor id or the mutation string is
falsy or the actor unknown, and (without broadcast) if the mutation is
already acquired; else append the mutation, `biomass += 1`,
`hp = min(20, hp + 1)`, bump the global biomass and histogram.  Note the
source never consults `EVOLUTION_TREE` here. -/
def handle_mutate (s : GridState) (pid? mu? : Option String) : GridState × Bool :=
  match truthy pid?, truthy mu? with
  | some pid, some mu =>
    (match pget s.players pid with
     | none => (s, false)
     | some p =>
       if mu ∈ p.mutations then (s, false)
       else
         let p' := { p with mutations := p.mutations ++ [mu],
                            biomass := p.biomass + 1,
                            hp := min 20 (p.hp + 1) }
         ({ s with players := pset s.players p',
                   global_biomass := s.global_biomass + 1,
                   hist := hbump s.hist mu }, true))
  | _, _ => (s, false)

/-- `handle_move`: no-op if the actor id or direction string is falsy or
the actor unknown; else translate by `direction_to_delta` and clamp to
the grid.  The broadcast happens whenever the guard passes, even if the
position is unchanged. -/
def handle_move (s : GridState) (pid? dir? : Option String) : GridState × Bool :=
  match truthy pid?, truthy dir? with
  | some pid, some dir =>
    (match pget s.players pid with
     | none => (s, false)
     | some p =>
       let d := direction_to_delta dir
       let p' := { p with x := clamp (p.x + d.1) 0 ((MAP_WIDTH : Int) - 1),
                          y := clamp (p.y + d.2) 0 ((MAP_HEIGHT : Int) - 1) }
       ({ s with players := pset s.players p' }, true))
  | _, _ => (s, false)

/-- The body of the target loop in `handle_attack`: each target (read
from the live dict) takes 2 damage; on death it is respawned (consuming
the indexed position draws) and the global biomass is decremented,
floored at 0. -/
def damage_targets : List String → (Nat → Nat × Nat) → Nat → GridState → GridState
  | [], _, _, s => s
  | tid :: rest, rnd, i, s =>
    let s' :=
      match pget s.players tid with
      | none => s
      | some t =>
        let t2 : PlayerState := { t with hp := t.hp - 2 }
        if t2.hp ≤ 0 then
          { s with players := pset s.players (respawn t2 (rnd i).1 (rnd i).2),
                   global_biomass := max 0 (s.global_biomass - 1) }
        else { s with players := pset s.players t2 }
    damage_targets rest rnd (i + 1) s'

/-- `handle_attack`: no-op if the actor id is falsy or unknown; else
damage every `find_targets` member; broadcast whenever the guard passes,
even with no targets in range. -/
def handle_attack (s : GridState) (pid? : Option String)
    (rnd : Nat → Nat × Nat) : GridState × Bool :=
  match truthy pid? with
  | none => (s, false)
  | some pid =>
    match pget s.players pid with
    | none => (s, false)
    | some atk => (damage_targets (find_targets s.players atk) rnd 0 s, true)

/-- The body of the bot target loop in `bot_loop`: bot targets are
skipped; others take 1 damage and are respawned on death (no global
biomass change in the bot loop). -/
def bot_damage : List String → (Nat → Nat × Nat) → Nat → List PlayerState → List PlayerState
  | [], _, _, l => l
  | tid :: rest, rnd, i, l =>
    let l' :=
      match pget l tid with
      | none => l
      | some t =>
        if t.is_bot then l
        else
          let t2 : PlayerState := { t with hp := t.hp - 1 }
          if t2.hp ≤ 0 then pset l (respawn t2 (rnd i).1 (rnd i).2)
          else pset l t2
    bot_damage rest rnd (i + 1) l'

/-- One bot's turn in `bot_loop`: move by a randomly drawn direction,
then attack the non-bot neighbours of the new position. -/
def bot_turn (l : List PlayerState) (bid : String) (dir : String)
    (rnd : Nat → Nat × Nat) : List PlayerState :=
  match pget l bid with
  | none => l
  | some bot =>
    let d := direction_to_delta dir
    let bot' := { bot with x := clamp (bot.x + d.1) 0 ((MAP_WIDTH : Int) - 1),
                           y := clamp (bot.y + d.2) 0 ((MAP_HEIGHT : Int) - 1) }
    let l1 := pset l bot'
    bot_damage (find_targets l1 bot') (rnd) 0 l1

/-- The per-bot fold of one `bot_loop` iteration, over the bot ids
captured at the start of the iteration. -/
def bot_tick_go : List String → (Nat → String) → (Nat → Nat → Nat × Nat) → Nat →
    List PlayerState → List PlayerState
  | [], _, _, _, l => l
  | bid :: rest, dirs, rnd, i, l =>
      bot_tick_go rest dirs rnd (i + 1) (bot_turn l bid (dirs i) (rnd i))

/-- One iteration of `bot_loop`: snapshot the bot list; if empty, skip;
else run every bot's turn.  `dirs i` is bot `i`'s drawn direction and
`rnd i` its stream of respawn position draws. -/
def bot_tick (s : GridState) (dirs : Nat → String)
    (rnd : Nat → Nat → Nat × Nat) : GridState × Bool :=
  let botIds := (s.players.filter (fun p => p.is_bot)).map (fun p => p.player_id)
  match botIds with
  | [] => (s, false)
  | _ :: _ =>
      ({ s with players := bot_tick_go botIds dirs rnd 0 s.players },
       !s.players.isEmpty)

/-- The command alphabet of the grid variant: the four socket handlers
plus one `bot_loop` iteration, each carrying its random draws. -/
inductive GCmd where
  | connect (req : Option String) (fresh : String) (rx ry : Nat) (bd : Nat → BotDraw)
  | disconnect (pid : Option String)
  | mutate (pid mu : Option String)
  | move (pid dir : Option String)
  | attack (pid : Option String) (rnd : Nat → Nat × Nat)
  | botTick (dirs : Nat → String) (rnd : Nat → Nat → Nat × Nat)

/-- One grid step: dispatch a command to its handler.  The Bool records
whether a full-world broadcast was emitted. -/
def gstep : GCmd → GridState → GridState × Bool
  | .connect req fresh rx ry bd, s => handle_connect s req fresh rx ry bd
  | .disconnect pid, s => handle_disconnect s pid
  | .mutate pid mu, s => handle_mutate s pid mu
  | .move pid dir, s => handle_move s pid dir
  | .attack pid rnd, s => handle_attack s pid rnd
  | .botTick dirs rnd, s => bot_tick s dirs rnd

/-- Run a sequence of grid commands. -/
def runGrid (cmds : List GCmd) (s : GridState) : GridState :=
  cmds.foldl (fun s c => (gstep c s).1) s

/-- The id set of app.py's static `EVOLUTION_TREE` (the keys at every
nesting level; the nodes carry only display labels and descriptions,
which no handler reads). -/
def EVOLUTION_IDS : List String :=
  ["metabolism", "solar", "prism", "radiant", "chemo", "acid", "ferment",
   "mobility", "flagella", "swarm", "burst", "float", "thermal", "camouflage",
   "defense", "shell", "spikes", "reflect", "toxin", "cloud", "stun"]

end App

namespace Server

/-- `Bacteria` dataclass of server.py.  `traits` is a Python dict
`str -> int`; it is modelled as a total function (the absent-key default
0 is only ever consulted through `traits.get(key, 0)` in
`apply_evolution`; `update_world` reads keys that `create_bacteria`
always populates). -/
structure Bacteria where
  identifier : String
  name : String
  traits : String → Int
  evolution : List String
  energy : ℝ
  population : Int

/-- The base trait dict built by `create_bacteria`. -/
def baseTraits : String → Int := fun k =>
  if k = "growth" then 5
  else if k = "defense" then 1
  else if k = "speed" then 1
  else if k = "survival" then 1
  else if k = "attack" then 0
  else 0

/-- `create_bacteria`. -/
def create_bacteria (identifier : String) : Bacteria :=
  { identifier := identifier, name := "Бактерия " ++ identifier.take 4,
    traits := baseTraits, evolution := [], energy := 50, population := 1 }

/-- server.py's `EVOLUTION_TREE`, reduced to what the handlers read: the
`effects` dict of each node (as an ordered item list), `none` for an
unknown id. -/
def EVOLUTION_TREE : String → Option (List (String × Int)) := fun id =>
  if id = "membranes" then some [("defense", 2), ("speed", -1)]
  else if id = "spores" then some [("survival", 3), ("growth", -1)]
  else if id = "flagella" then some [("speed", 3), ("growth", 1)]
  else if id = "biofilm" then some [("defense", 3), ("growth", -1)]
  else if id = "chemotaxis" then some [("growth", 2)]
  else if id = "predation" then some [("attack", 3), ("growth", 1)]
  else none

/-- The effects loop of `apply_evolution`:
`traits[key] = traits.get(key, 0) + value` for each item in order. -/
def applyEffects (traits : String → Int) : List (String × Int) → (String → Int)
  | [] => traits
  | (k, v) :: rest =>
      applyEffects (fun key => if key = k then traits k + v else traits key) rest

/-- `apply_evolution`: no-op if the id is not in the catalog or already
acquired; else append it and add its effects to the trait dict. -/
def apply_evolution (b : Bacteria) (evolution_id : String) : Bacteria :=
  match EVOLUTION_TREE evolution_id with
  | none => b
  | some effects =>
    if evolution_id ∈ b.evolution then b
    else { b with evolution := b.evolution ++ [evolution_id],
                  traits := applyEffects b.traits effects }

/-- The `World` object of server.py: tick counter, the bacteria dict
(insertion-ordered association list) and the `global_traits` dict
(`nutrients`, `acidity`, and the never-touched `temperature`). -/
structure World where
  tick : Nat
  bacteria : List (String × Bacteria)
  nutrients : ℝ
  acidity : ℝ
  temperature : Int

/-- The world at startup: `World()` with `global_traits`
`{acidity: 0.0, temperature: 20, nutrients: 50.0}`. -/
def initWorld : World :=
  { tick := 0, bacteria := [], nutrients := 50, acidity := 0, temperature := 20 }

/-- Dict lookup in `world.bacteria`. -/
def bget : List (String × Bacteria) → String → Option Bacteria
  | [], _ => none
  | (k, b) :: rest, id => if k = id then some b else bget rest id

/-- Dict assignment `world.bacteria[id] = b`. -/
def bset : List (String × Bacteria) → String → Bacteria → List (String × Bacteria)
  | [], id, b => [(id, b)]
  | (k, v) :: rest, id, b =>
      if k = id then (k, b) :: rest else (k, v) :: bset rest id b

/-- Dict `world.bacteria.pop(id, None)`. -/
def bremove : List (String × Bacteria) → String → List (String × Bacteria)
  | [], _ => []
  | (k, v) :: rest, id => if k = id then rest else (k, v) :: bremove rest id

/-- The per-bacterium body of `update_world`, as a function of the newly
computed environment values. -/
noncomputable def tickBacteria (nutrients acidity : ℝ) (b : Bacteria) : Bacteria :=
  let growth_boost : ℝ := (b.traits "growth" : ℝ) + (b.traits "speed" : ℝ)
  let survival_penalty : ℝ := max 0 (acidity - (b.traits "defense" : ℝ))
  let nutrient_bonus : ℝ := nutrients / 10
  let delta := growth_boost + nutrient_bonus - survival_penalty
  let e1 := max 0 (b.energy + delta)
  let p2 := if e1 > 100 then b.population + 1 else b.population
  let e2 := if e1 > 100 then e1 - 30 else e1
  let p3 := if e2 < 5 then max 1 (p2 - 1) else p2
  let e3 := if e2 < 5 then e2 + 10 else e2
  { b with energy := e3, population := p3 }

/-- `update_world`: increment the tick, recompute nutrients and acidity
from the new tick, then update every bacterium. -/
noncomputable def update_world (w : World) : World :=
  let t := w.tick + 1
  let nut : ℝ := max 10 (60 + Real.sin ((t : ℝ) / 10) * 15)
  let acid : ℝ := max 0 (10 + Real.cos ((t : ℝ) / 12) * 4)
  { tick := t, nutrients := nut, acidity := acid,
    temperature := w.temperature,
    bacteria := w.bacteria.map (fun kb => (kb.1, tickBacteria nut acid kb.2)) }

/-- The command alphabet of the colony variant: the websocket lifecycle
events and evolution selection, plus one `world_loop` tick. -/
inductive CCmd where
  | join (identifier : String)
  | select (identifier : String) (eid : Option String)
  | leave (identifier : String)
  | tick

/-- One colony step.  `join`: `world.bacteria[id] = create_bacteria(id)`.
`select`: guarded by the payload id's truthiness, then
`apply_evolution(world.bacteria[id], eid)` (an absent session id would
raise `KeyError` before any mutation, leaving the state unchanged, which
the `none` branch models).  `leave`: `world.bacteria.pop(id, None)`.
`tick`: `update_world()`. -/
noncomputable def cstep : CCmd → World → World
  | .join id, w => { w with bacteria := bset w.bacteria id (create_bacteria id) }
  | .select id eid, w =>
    (match App.truthy eid with
     | none => w
     | some e =>
       match bget w.bacteria id with
       | none => w
       | some b => { w with bacteria := bset w.bacteria id (apply_evolution b e) })
  | .leave id, w => { w with bacteria := bremove w.bacteria id }
  | .tick, w => update_world w

/-- Run a sequence of colony commands. -/
noncomputable def runColony (cmds : List CCmd) (w : World) : World :=
  cmds.foldl (fun w c => cstep c w) w

/-- One registered websocket session as `broadcast` observes it: an
identifying number, the `closed` flag it tests, and whether `send_str`
would succeed (`sendOk = false` models `send_str` raising). -/
structure Client where
  cid : Nat
  closed : Bool
  sendOk : Bool
deriving DecidableEq, Repr

/-- The client loop of `broadcast`: walk the registered clients in
iteration order, skipping closed ones into the `closed` removal list and
sending the (single, already serialized) payload to the rest.  A raising
`send_str` propagates: the loop, and the removal pass after it, never
run for the remaining clients — `Except.error` carries the ids that were
delivered before the raise. -/
def broadcastLoop : List Client → List Nat → List Client →
    Except (List Nat) (List Nat × List Client)
  | [], delivered, closedAcc => .ok (delivered, closedAcc)
  | c :: rest, delivered, closedAcc =>
    if c.closed then broadcastLoop rest delivered (closedAcc ++ [c])
    else if c.sendOk then broadcastLoop rest (delivered ++ [c.cid]) closedAcc
    else .error delivered

/-- `broadcast(message)`: nothing to do without clients; otherwise run
the send loop and, if it completes, discard the collected closed clients
from the registry.  Result: the ids the payload was delivered to and the
remaining registry (or, on a raise, just the ids delivered so far). -/
def broadcast (clients : List Client) : Except (List Nat) (List Nat × List Client) :=
  if clients.isEmpty then .ok ([], [])
  else
    match broadcastLoop clients [] [] with
    | .ok (delivered, closedAcc) =>
        .ok (delivered, clients.filter (fun c => decide (c ∉ closedAcc)))
    | .error d => .error d

end Server

namespace App

theorem pget_eq_id {l : List PlayerState} {pid : String} {p : PlayerState}
    (h : pget l pid = some p) : p.player_id = pid := by
  induction l with
  | nil => simp [pget] at h
  | cons q rest ih =>
    by_cases hq : q.player_id = pid
    · simp [pget, hq] at h
      subst h
      exact hq
    · simp [pget, hq] at h
      exact ih h

theorem pget_pset_self (l : List PlayerState) (p : PlayerState) :
    pget (pset l p) p.player_id = some p := by
  induction l with
  | nil => simp [pget, pset]
  | cons q rest ih =>
    by_cases hq : q.player_id = p.player_id
    · simp [pset, hq, pget]
    · simp [pset, hq, pget, ih]

theorem pget_pset_ne {pid : String} {p : PlayerState}
    (l : List PlayerState) (h : pid ≠ p.player_id) :
    pget (pset l p) pid = pget l pid := by
  induction l with
  | nil =>
    simp only [pset, pget]
    rw [if_neg (fun hh => h hh.symm)]
  | cons q rest ih =>
    by_cases hq : q.player_id = p.player_id
    · simp only [pset, if_pos hq, pget]
      rw [if_neg (fun hh => h hh.symm), if_neg (fun hh => h (hq.symm.trans hh).symm)]
    · simp only [pset, if_neg hq, pget]
      by_cases hq2 : q.player_id = pid
      · rw [if_pos hq2, if_pos hq2]
      · rw [if_neg hq2, if_neg hq2, ih]

theorem mem_pset {q p : PlayerState} {l : List PlayerState}
    (h : q ∈ pset l p) : q ∈ l ∨ q = p := by
  induction l with
  | nil => simp [pset] at h; exact Or.inr h
  | cons r rest ih =>
    by_cases hr : r.player_id = p.player_id
    · simp [pset, hr] at h
      rcases h with h | h
      · exact Or.inr h
      · exact Or.inl (List.mem_cons_of_mem _ h)
    · simp [pset, hr] at h
      rcases h with h | h
      · exact Or.inl (h ▸ List.mem_cons_self _ _)
      · rcases ih h with h2 | h2
        · exact Or.inl (List.mem_cons_of_mem _ h2)
        · exact Or.inr h2

theorem mem_premove {q : PlayerState} {l : List PlayerState} {pid : String}
    (h : q ∈ premove l pid) : q ∈ l := by
  induction l with
  | nil => simp [premove] at h
  | cons r rest ih =>
    by_cases hr : r.player_id = pid
    · simp [premove, hr] at h
      exact List.mem_cons_of_mem _ h
    · simp [premove, hr] at h
      rcases h with h | h
      · exact h ▸ List.mem_cons_self _ _
      · exact List.mem_cons_of_mem _ (ih h)

theorem pget_mem {l : List PlayerState} {pid : String} {p : PlayerState}
    (h : pget l pid = some p) : p ∈ l := by
  induction l with
  | nil => simp [pget] at h
  | cons q rest ih =>
    by_cases hq : q.player_id = pid
    · simp [pget, hq] at h
      exact h ▸ List.mem_cons_self _ _
    · simp [pget, hq] at h
      exact List.mem_cons_of_mem _ (ih h)

theorem hget_hbump (h : List (String × Nat)) (m' m : String) :
    hget (hbump h m') m = hget h m + if m' = m then 1 else 0 := by
  induction h with
  | nil =>
    by_cases he : m' = m
    · simp [hget, hbump, he]
    · simp [hget, hbump, he, fun hh => he hh]
  | cons kv rest ih =>
    obtain ⟨k, v⟩ := kv
    by_cases hk : k = m'
    · subst hk
      by_cases he : k = m
      · subst he
        simp [hbump, hget]
      · simp [hbump, hget, he]
    · by_cases he : k = m
      · subst he
        simp [hbump, hk, hget, Ne.symm hk]
      · simp [hbump, hk, hget, he, ih]

theorem pget_pset_of_id (l : List PlayerState) {v : PlayerState} {pid : String}
    (h : v.player_id = pid) : pget (pset l v) pid = some v :=
  h ▸ pget_pset_self l v

theorem pget_of_mem_nodup {l : List PlayerState} {p : PlayerState}
    (hnd : (l.map (fun q => q.player_id)).Nodup) (hm : p ∈ l) :
    pget l p.player_id = some p := by
  induction l with
  | nil => simp at hm
  | cons q rest ih =>
    simp only [List.map_cons, List.nodup_cons] at hnd
    rcases List.mem_cons.mp hm with h | h
    · subst h
      simp [pget]
    · by_cases hq : q.player_id = p.player_id
      · exact absurd (hq ▸ List.mem_map_of_mem _ h) hnd.1
      · simp [pget, hq]
        exact ih hnd.2 h

theorem pget_premove_self {l : List PlayerState} {pid : String}
    (hnd : (l.map (fun q => q.player_id)).Nodup) :
    pget (premove l pid) pid = none := by
  induction l with
  | nil => simp [premove, pget]
  | cons q rest ih =>
    simp only [List.map_cons, List.nodup_cons] at hnd
    by_cases hq : q.player_id = pid
    · subst hq
      have hred : premove (q :: rest) q.player_id = rest := by
        simp [premove]
      rw [hred]
      cases hrest : pget rest q.player_id with
      | none => rfl
      | some r =>
        exact absurd (pget_eq_id hrest ▸ List.mem_map_of_mem _ (pget_mem hrest)) hnd.1
    · simp [premove, hq, pget, ih hnd.2]

end App

namespace App

/-- The invariant "no actor's acquired-mutation list contains a
duplicate id". -/
def MutNodup (s : GridState) : Prop := ∀ p ∈ s.players, p.mutations.Nodup

instance (s : GridState) : Decidable (MutNodup s) := by
  unfold MutNodup
  infer_instance

/-- A concrete fixture: one human player `A` at (3, 3), bots already
started. -/
def stateA : GridState :=
  { players := [{ player_id := "A", x := 3, y := 3 }], playersCount := 1,
    hist := [], global_biomass := 1, bots_started := true }

end App

/-- C1: for every actor and mutation id, applying `mutate` twice with the
same mutation id yields the same state as applying it once (the second
call is a no-op), `acquiredMutations` stays duplicate-free, and the same
idempotence holds for the colony variant's `apply_evolution` (so biomass,
health, traits and the global mutation histogram are unchanged by the
repeated call). -/
theorem C1_mutate_idempotent :
    (∀ (s : App.GridState) (pid? mu? : Option String),
      (App.handle_mutate (App.handle_mutate s pid? mu?).1 pid? mu?).1 =
        (App.handle_mutate s pid? mu?).1) ∧
    (∀ (s : App.GridState) (pid? mu? : Option String),
      App.MutNodup s → App.MutNodup (App.handle_mutate s pid? mu?).1) ∧
    (∀ (b : Server.Bacteria) (eid : String),
      Server.apply_evolution (Server.apply_evolution b eid) eid =
        Server.apply_evolution b eid) := by
  refine ⟨?_, ?_, ?_⟩
  · intro s pid? mu?
    cases hp : App.truthy pid? with
    | none => simp [App.handle_mutate, hp]
    | some pid =>
      cases hm : App.truthy mu? with
      | none => simp [App.handle_mutate, hp, hm]
      | some mu =>
        cases hg : App.pget s.players pid with
        | none => simp [App.handle_mutate, hp, hm, hg]
        | some p =>
          by_cases hmem : mu ∈ p.mutations
          · simp [App.handle_mutate, hp, hm, hg, hmem]
          · have hid : p.player_id = pid := App.pget_eq_id hg
            simp [App.handle_mutate, hp, hm, hg, hmem, App.pget_pset_of_id, hid]
  · intro s pid? mu? hnd
    cases hp : App.truthy pid? with
    | none => simpa [App.handle_mutate, hp] using hnd
    | some pid =>
      cases hm : App.truthy mu? with
      | none => simpa [App.handle_mutate, hp, hm] using hnd
      | some mu =>
        cases hg : App.pget s.players pid with
        | none => simpa [App.handle_mutate, hp, hm, hg] using hnd
        | some p =>
          by_cases hmem : mu ∈ p.mutations
          · simpa [App.handle_mutate, hp, hm, hg, hmem] using hnd
          · have hmnd : (p.mutations ++ [mu]).Nodup := by
              rw [List.nodup_append]
              refine ⟨hnd p (App.pget_mem hg), List.nodup_singleton mu, ?_⟩
              intro a ha hb
              rw [List.mem_singleton] at hb
              exact hmem (hb ▸ ha)
            intro q hq
            simp only [App.handle_mutate, hp, hm, hg, if_neg hmem] at hq
            rcases App.mem_pset hq with h | h
            · exact hnd q h
            · subst h
              exact hmnd
  · intro b eid
    cases ht : Server.EVOLUTION_TREE eid with
    | none => simp [Server.apply_evolution, ht]
    | some effects =>
      by_cases hmem : eid ∈ b.evolution
      · simp [Server.apply_evolution, ht, hmem]
      · simp [Server.apply_evolution, ht, hmem]

/-- Witness for C1: the duplicate-freedom preservation applied at a
concrete state and mutation. -/
theorem C1_mutate_idempotent_witness :
    App.MutNodup App.stateA ∧
    App.MutNodup (App.handle_mutate App.stateA (some "A") (some "shell")).1 :=
  ⟨by decide,
   C1_mutate_idempotent.2.1 App.stateA (some "A") (some "shell") (by decide)⟩

/-- C7: for every actor, every direction token and every in-grid starting
position, `move` yields a position inside `[0,12) × [0,8)`; the four
known directions translate by their unit vector clamped to the grid, and
any unknown token (including the falsy empty string) moves by the zero
vector, leaving the position unchanged rather than erroring. -/
theorem C7_move_in_bounds :
    ∀ (s : App.GridState) (pid dir : String) (p : App.PlayerState),
      pid ≠ "" → App.pget s.players pid = some p →
      0 ≤ p.x → p.x < 12 → 0 ≤ p.y → p.y < 8 →
      ∃ p', App.pget ((App.handle_move s (some pid) (some dir)).1).players pid
          = some p' ∧
        0 ≤ p'.x ∧ p'.x < 12 ∧ 0 ≤ p'.y ∧ p'.y < 8 ∧
        (dir ∉ (["up", "down", "left", "right"] : List String) →
          p'.x = p.x ∧ p'.y = p.y) ∧
        (dir = "up" → p'.x = p.x ∧ p'.y = max 0 (p.y - 1)) ∧
        (dir = "down" → p'.x = p.x ∧ p'.y = min 7 (p.y + 1)) ∧
        (dir = "left" → p'.x = max 0 (p.x - 1) ∧ p'.y = p.y) ∧
        (dir = "right" → p'.x = min 11 (p.x + 1) ∧ p'.y = p.y) := by
  intro s pid dir p hpid hg hx0 hx1 hy0 hy1
  by_cases hdir : dir = ""
  · subst hdir
    refine ⟨p, ?_, hx0, hx1, hy0, hy1, fun _ => ⟨rfl, rfl⟩, ?_, ?_, ?_, ?_⟩
    · simpa [App.handle_move, App.truthy, hpid] using hg
    all_goals intro h; exact absurd h (by decide)
  · have hid : p.player_id = pid := App.pget_eq_id hg
    have hstep : ((App.handle_move s (some pid) (some dir)).1).players =
        App.pset s.players
          { p with x := App.clamp (p.x + (App.direction_to_delta dir).1) 0 11,
                   y := App.clamp (p.y + (App.direction_to_delta dir).2) 0 7 } := by
      simp [App.handle_move, App.truthy, hpid, hdir, hg, App.MAP_WIDTH, App.MAP_HEIGHT]
    refine ⟨_, by rw [hstep]; exact App.pget_pset_of_id _ hid, ?_, ?_, ?_, ?_, ?_, ?_, ?_, ?_, ?_⟩
    · show 0 ≤ App.clamp _ 0 11
      unfold App.clamp
      omega
    · show App.clamp _ 0 11 < 12
      unfold App.clamp
      omega
    · show 0 ≤ App.clamp _ 0 7
      unfold App.clamp
      omega
    · show App.clamp _ 0 7 < 8
      unfold App.clamp
      omega
    · intro hu
      simp only [List.mem_cons] at hu
      push_neg at hu
      obtain ⟨h1, h2, h3, h4, -⟩ := hu
      constructor
      · show App.clamp (p.x + (App.direction_to_delta dir).1) 0 11 = p.x
        simp only [App.direction_to_delta, if_neg h1, if_neg h2, if_neg h3, if_neg h4]
        show App.clamp (p.x + 0) 0 11 = p.x
        unfold App.clamp
        omega
      · show App.clamp (p.y + (App.direction_to_delta dir).2) 0 7 = p.y
        simp only [App.direction_to_delta, if_neg h1, if_neg h2, if_neg h3, if_neg h4]
        show App.clamp (p.y + 0) 0 7 = p.y
        unfold App.clamp
        omega
    · intro h
      subst h
      constructor
      · show App.clamp (p.x + (App.direction_to_delta "up").1) 0 11 = p.x
        have hd : (App.direction_to_delta "up").1 = 0 := by decide
        rw [hd]
        unfold App.clamp
        omega
      · show App.clamp (p.y + (App.direction_to_delta "up").2) 0 7 = max 0 (p.y - 1)
        have hd : (App.direction_to_delta "up").2 = -1 := by decide
        rw [hd]
        unfold App.clamp
        omega
    · intro h
      subst h
      constructor
      · show App.clamp (p.x + (App.direction_to_delta "down").1) 0 11 = p.x
        have hd : (App.direction_to_delta "down").1 = 0 := by decide
        rw [hd]
        unfold App.clamp
        omega
      · show App.clamp (p.y + (App.direction_to_delta "down").2) 0 7 = min 7 (p.y + 1)
        have hd : (App.direction_to_delta "down").2 = 1 := by decide
        rw [hd]
        unfold App.clamp
        omega
    · intro h
      subst h
      constructor
      · show App.clamp (p.x + (App.direction_to_delta "left").1) 0 11 = max 0 (p.x - 1)
        have hd : (App.direction_to_delta "left").1 = -1 := by decide
        rw [hd]
        unfold App.clamp
        omega
      · show App.clamp (p.y + (App.direction_to_delta "left").2) 0 7 = p.y
        have hd : (App.direction_to_delta "left").2 = 0 := by decide
        rw [hd]
        unfold App.clamp
        omega
    · intro h
      subst h
      constructor
      · show App.clamp (p.x + (App.direction_to_delta "right").1) 0 11 = min 11 (p.x + 1)
        have hd : (App.direction_to_delta "right").1 = 1 := by decide
        rw [hd]
        unfold App.clamp
        omega
      · show App.clamp (p.y + (App.direction_to_delta "right").2) 0 7 = p.y
        have hd : (App.direction_to_delta "right").2 = 0 := by decide
        rw [hd]
        unfold App.clamp
        omega

/-- Witness for C7 at the concrete fixture: player `A` at (3, 3) moving
by the unknown token "zzz" stays at (3, 3). -/
theorem C7_move_in_bounds_witness :
    ∃ p', App.pget ((App.handle_move App.stateA (some "A") (some "zzz")).1).players "A"
        = some p' ∧
      0 ≤ p'.x ∧ p'.x < 12 ∧ 0 ≤ p'.y ∧ p'.y < 8 ∧
      ("zzz" ∉ (["up", "down", "left", "right"] : List String) →
        p'.x = { player_id := "A", x := 3, y := 3 : App.PlayerState }.x ∧
        p'.y = { player_id := "A", x := 3, y := 3 : App.PlayerState }.y) ∧
      ("zzz" = "up" → p'.x = 3 ∧ p'.y = max 0 (3 - 1)) ∧
      ("zzz" = "down" → p'.x = 3 ∧ p'.y = min 7 (3 + 1)) ∧
      ("zzz" = "left" → p'.x = max 0 (3 - 1) ∧ p'.y = 3) ∧
      ("zzz" = "right" → p'.x = min 11 (3 + 1) ∧ p'.y = 3) :=
  C7_move_in_bounds App.stateA "A" "zzz"
    { player_id := "A", x := 3, y := 3 } (by decide) (by decide)
    (by decide) (by decide) (by decide) (by decide)

namespace App

/-- A concrete fixture: one human player `A` that has already acquired a
mutation and grown its biomass to 5; bots already started. -/
def stateA5 : GridState :=
  { players := [{ player_id := "A", mutations := ["x"], biomass := 5,
                  hp := 12, x := 3, y := 3 }],
    playersCount := 1, hist := [("x", 1)], global_biomass := 5,
    bots_started := true }

/-- A concrete bot-draw source for fixtures. -/
def botDrawFix : Nat → BotDraw :=
  fun _ => { bid := "bot-1", name := "Сапрофит", rx := 0, ry := 0 }

end App

/-- C3 counterexample: the live actor `A` holds biomass 5 and mutation
list `["x"]`; a `join` carrying requested id `A` does not leave that
actor alone — `handle_connect` assigns a brand-new `PlayerState` over the
binding, so afterwards `A` has biomass 1 and no mutations.  This refutes
"joining with an id already bound to a live actor never replaces or
destroys that existing actor's state". -/
theorem C3_requested_id_overwrites :
    (App.pget App.stateA5.players "A").map (fun p => (p.biomass, p.mutations))
      = some (5, ["x"]) ∧
    (App.pget ((App.handle_connect App.stateA5 (some "A") "fresh" 0 0
        App.botDrawFix).1).players "A").map (fun p => (p.biomass, p.mutations))
      = some (1, []) :=
  ⟨by decide, by decide⟩

/-- C3 amended: a truthy requested id is always used as the new actor's
id — whether or not it is currently free — and the binding at that id
becomes a fresh default `PlayerState` (so an existing actor there is
replaced); a fresh unique id is minted only when no id (or an empty id)
is requested.  Stated with the bot roster already spawned, so that the
lazy bot spawn inside `handle_connect` is the identity. -/
theorem C3_join_id_assignment :
    ∀ (s : App.GridState) (req fresh : String) (rx ry : Nat)
      (bd : Nat → App.BotDraw), s.bots_started = true →
      (req ≠ "" →
        ∃ p', App.pget ((App.handle_connect s (some req) fresh rx ry
            bd).1).players req = some p' ∧ p'.player_id = req ∧
          p'.mutations = [] ∧ p'.biomass = 1 ∧ p'.hp = 10 ∧ p'.is_bot = false) ∧
      (∃ p', App.pget ((App.handle_connect s none fresh rx ry
          bd).1).players fresh = some p' ∧ p'.player_id = fresh ∧
        p'.mutations = [] ∧ p'.biomass = 1) := by
  intro s req fresh rx ry bd hb
  constructor
  · intro hreq
    have hstep : ((App.handle_connect s (some req) fresh rx ry bd).1).players
        = App.pset s.players
            { player_id := req, x := App.randpos rx App.MAP_WIDTH,
                                y := App.randpos ry App.MAP_HEIGHT } := by
      simp [App.handle_connect, App.truthy, hreq, App.ensure_bots_running, hb]
    exact ⟨_, by rw [hstep]; exact App.pget_pset_of_id _ rfl, rfl, rfl, rfl, rfl, rfl⟩
  · have hstep : ((App.handle_connect s none fresh rx ry bd).1).players
        = App.pset s.players
            { player_id := fresh, x := App.randpos rx App.MAP_WIDTH,
                                  y := App.randpos ry App.MAP_HEIGHT } := by
      simp [App.handle_connect, App.truthy, App.ensure_bots_running, hb]
    exact ⟨_, by rw [hstep]; exact App.pget_pset_of_id _ rfl, rfl, rfl, rfl⟩

/-- Witness for C3's amended theorem at a concrete state: connecting with
requested id `A` over the live `A` of the fixture. -/
theorem C3_join_id_assignment_witness :
    ∃ p', App.pget ((App.handle_connect App.stateA5 (some "A") "fresh" 0 0
        App.botDrawFix).1).players "A" = some p' ∧ p'.player_id = "A" ∧
      p'.mutations = [] ∧ p'.biomass = 1 ∧ p'.hp = 10 ∧ p'.is_bot = false :=
  (C3_join_id_assignment App.stateA5 "A" "fresh" 0 0 App.botDrawFix
    (by decide)).1 (by decide)

/-- C4 counterexample: `"bogus"` is a key of neither variant's evolution
catalog, yet in the grid variant `handle_mutate` applies it: the actor's
mutation list and biomass change, the global histogram gains a
`"bogus"` entry, and a broadcast is emitted.  This refutes "a mutate with
a mutation id that is not a key of the evolution catalog is a silent
no-op". -/
theorem C4_unknown_mutation_applied :
    "bogus" ∉ App.EVOLUTION_IDS ∧
    Server.EVOLUTION_TREE "bogus" = none ∧
    (App.pget ((App.handle_mutate App.stateA (some "A") (some "bogus")).1).players
        "A").map (fun p => (p.biomass, p.mutations)) = some (2, ["bogus"]) ∧
    App.hget ((App.handle_mutate App.stateA (some "A") (some "bogus")).1).hist
      "bogus" = 1 ∧
    (App.handle_mutate App.stateA (some "A") (some "bogus")).2 = true :=
  ⟨by decide, by decide, by decide, by decide, by decide⟩

/-- C4 amended: only the colony variant guards against unknown ids — its
`apply_evolution` is a silent no-op whenever the id is not a catalog key.
The grid variant's `handle_mutate` never consults the catalog: every
truthy, not-yet-acquired mutation id of a known actor is appended, with
biomass incremented and the global histogram bumped, catalog key or not. -/
theorem C4_unknown_mutation_noop :
    (∀ (b : Server.Bacteria) (eid : String), Server.EVOLUTION_TREE eid = none →
      Server.apply_evolution b eid = b) ∧
    (∀ (s : App.GridState) (pid mu : String) (p : App.PlayerState),
      pid ≠ "" → mu ≠ "" → App.pget s.players pid = some p → mu ∉ p.mutations →
      ∃ p', App.pget ((App.handle_mutate s (some pid) (some mu)).1).players pid
          = some p' ∧
        p'.mutations = p.mutations ++ [mu] ∧ p'.biomass = p.biomass + 1 ∧
        App.hget ((App.handle_mutate s (some pid) (some mu)).1).hist mu
          = App.hget s.hist mu + 1) := by
  constructor
  · intro b eid ht
    simp [Server.apply_evolution, ht]
  · intro s pid mu p hpid hmu hg hmem
    have hid : p.player_id = pid := App.pget_eq_id hg
    have hstep : (App.handle_mutate s (some pid) (some mu)).1
        = { s with players := App.pset s.players
                     { p with mutations := p.mutations ++ [mu],
                              biomass := p.biomass + 1, hp := min 20 (p.hp + 1) },
                   global_biomass := s.global_biomass + 1,
                   hist := App.hbump s.hist mu } := by
      simp [App.handle_mutate, App.truthy, hpid, hmu, hg, hmem]
    refine ⟨{ p with mutations := p.mutations ++ [mu],
                     biomass := p.biomass + 1,
                     hp := min 20 (p.hp + 1) }, ?_, rfl, rfl, ?_⟩
    · rw [hstep]
      exact App.pget_pset_of_id _ hid
    · rw [hstep]
      show App.hget (App.hbump s.hist mu) mu = App.hget s.hist mu + 1
      rw [App.hget_hbump]
      simp

/-- Witness for C4's amended theorem: the colony no-op applied at a
concrete bacterium and unknown id, evaluated on its `evolution` list. -/
theorem C4_unknown_mutation_noop_witness :
    Server.apply_evolution (Server.create_bacteria "abcd") "bogus"
      = Server.create_bacteria "abcd" :=
  C4_unknown_mutation_noop.1 (Server.create_bacteria "abcd") "bogus" (by rfl)

/-- C8 counterexample: a `move` whose direction token is unknown leaves
the state exactly unchanged yet still returns broadcast `true`, and so
does an `attack` with no target in range.  This refutes "a broadcast is
emitted if and only if the command successfully mutated state". -/
theorem C8_noop_commands_broadcast :
    App.handle_move App.stateA (some "A") (some "zzz") = (App.stateA, true) ∧
    App.handle_attack App.stateA (some "A") (fun _ => (0, 0)) = (App.stateA, true) :=
  ⟨by decide, by decide⟩

/-- C8 amended: a broadcast is emitted exactly when the handler's
validation guard passes (actor id truthy and bound, required argument
truthy, and — for mutate only — mutation not already acquired); a
guard-passing command broadcasts even when it leaves the state unchanged,
and a guard-failing or duplicate-mutation command neither changes state
nor broadcasts. -/
theorem C8_broadcast_on_guard :
    (∀ (s : App.GridState) (pid dir : String) (p : App.PlayerState),
      pid ≠ "" → dir ≠ "" → App.pget s.players pid = some p →
      (App.handle_move s (some pid) (some dir)).2 = true) ∧
    (∀ (s : App.GridState) (pid : String) (rnd : Nat → Nat × Nat)
      (p : App.PlayerState), pid ≠ "" → App.pget s.players pid = some p →
      (App.handle_attack s (some pid) rnd).2 = true) ∧
    (∀ (s : App.GridState) (pid mu : String) (p : App.PlayerState),
      App.pget s.players pid = some p → mu ∈ p.mutations →
      App.handle_mutate s (some pid) (some mu) = (s, false)) ∧
    (∀ (s : App.GridState) (pid dir : String), pid ≠ "" →
      App.pget s.players pid = none →
      App.handle_move s (some pid) (some dir) = (s, false)) ∧
    (∀ (s : App.GridState) (pid : String) (rnd : Nat → Nat × Nat), pid ≠ "" →
      App.pget s.players pid = none →
      App.handle_attack s (some pid) rnd = (s, false)) := by
  refine ⟨?_, ?_, ?_, ?_, ?_⟩
  · intro s pid dir p hpid hdir hg
    simp [App.handle_move, App.truthy, hpid, hdir, hg]
  · intro s pid rnd p hpid hg
    simp [App.handle_attack, App.truthy, hpid, hg]
  · intro s pid mu p hg hmem
    by_cases hpid : pid = ""
    · subst hpid
      by_cases hmu : mu = ""
      · subst hmu
        simp [App.handle_mutate, App.truthy]
      · simp [App.handle_mutate, App.truthy, hmu]
    · by_cases hmu : mu = ""
      · subst hmu
        simp [App.handle_mutate, App.truthy, hpid]
      · simp [App.handle_mutate, App.truthy, hpid, hmu, hg, hmem]
  · intro s pid dir hpid hg
    by_cases hdir : dir = ""
    · subst hdir
      simp [App.handle_move, App.truthy, hpid]
    · simp [App.handle_move, App.truthy, hpid, hdir, hg]
  · intro s pid rnd hpid hg
    simp [App.handle_attack, App.truthy, hpid, hg]

/-- Witness for C8's amended theorem: the unknown-direction move at the
fixture broadcasts. -/
theorem C8_broadcast_on_guard_witness :
    (App.handle_move App.stateA (some "A") (some "zzz")).2 = true :=
  C8_broadcast_on_guard.1 App.stateA "A" "zzz"
    { player_id := "A", x := 3, y := 3 } (by decide) (by decide) (by decide)

namespace Server

theorem broadcastLoop_ok : ∀ (l : List Client) (d : List Nat) (a : List Client),
    (∀ c ∈ l, c.closed = false → c.sendOk = true) →
    broadcastLoop l d a
      = .ok (d ++ (l.filter (fun c => !c.closed)).map (fun c => c.cid),
             a ++ l.filter (fun c => c.closed)) := by
  intro l
  induction l with
  | nil =>
    intro d a h
    simp [broadcastLoop]
  | cons c rest ih =>
    intro d a h
    have hrest : ∀ x ∈ rest, x.closed = false → x.sendOk = true :=
      fun x hx => h x (List.mem_cons_of_mem _ hx)
    cases hcl : c.closed with
    | true =>
      have hstep : broadcastLoop (c :: rest) d a
          = broadcastLoop rest d (a ++ [c]) := by
        simp [broadcastLoop, hcl]
      rw [hstep, ih d (a ++ [c]) hrest]
      simp [List.filter_cons, hcl]
    | false =>
      have hs : c.sendOk = true := h c (List.mem_cons_self _ _) hcl
      have hstep : broadcastLoop (c :: rest) d a
          = broadcastLoop rest (d ++ [c.cid]) a := by
        simp [broadcastLoop, hcl, hs]
      rw [hstep, ih (d ++ [c.cid]) a hrest]
      simp [List.filter_cons, hcl]

theorem broadcastLoop_err : ∀ (pre : List Client) (bad : Client)
    (post : List Client) (d : List Nat) (a : List Client),
    (∀ c ∈ pre, c.closed = false → c.sendOk = true) →
    bad.closed = false → bad.sendOk = false →
    broadcastLoop (pre ++ bad :: post) d a
      = .error (d ++ (pre.filter (fun c => !c.closed)).map (fun c => c.cid)) := by
  intro pre
  induction pre with
  | nil =>
    intro bad post d a h hb hs
    simp [broadcastLoop, hb, hs]
  | cons c rest ih =>
    intro bad post d a h hb hs
    have hrest : ∀ x ∈ rest, x.closed = false → x.sendOk = true :=
      fun x hx => h x (List.mem_cons_of_mem _ hx)
    cases hcl : c.closed with
    | true =>
      have hstep : broadcastLoop ((c :: rest) ++ bad :: post) d a
          = broadcastLoop (rest ++ bad :: post) d (a ++ [c]) := by
        simp [broadcastLoop, hcl]
      rw [hstep, ih bad post d (a ++ [c]) hrest hb hs]
      simp [List.filter_cons, hcl]
    | false =>
      have hok : c.sendOk = true := h c (List.mem_cons_self _ _) hcl
      have hstep : broadcastLoop ((c :: rest) ++ bad :: post) d a
          = broadcastLoop (rest ++ bad :: post) (d ++ [c.cid]) a := by
        simp [broadcastLoop, hcl, hok]
      rw [hstep, ih bad post (d ++ [c.cid]) a hrest hb hs]
      simp [List.filter_cons, hcl]

end Server

/-- C9 counterexample: two live sessions; `send_str` raises on the first,
and the second — live and perfectly able to receive — is never delivered
to (the `Except.error` carries the empty list of delivered session ids).
This refutes "a send failure only marks that session for removal and
never aborts delivery of the payload to the remaining sessions". -/
theorem C9_send_failure_aborts :
    Server.broadcast [{ cid := 1, closed := false, sendOk := false },
                      { cid := 2, closed := false, sendOk := true }]
      = .error [] ∧
    ({ cid := 2, closed := false, sendOk := true } : Server.Client).closed
      = false :=
  ⟨by rfl, rfl⟩

/-- C9 amended: a *closed* session is skipped and merely collected for
removal, without affecting delivery of the single serialized payload to
the others — when every non-closed session's send succeeds, exactly the
non-closed sessions receive the payload, in registry order, and exactly
the closed ones are discarded from the registry.  But an *exception*
while sending to a non-closed session propagates out of the loop: the
sessions after it receive nothing, and the closed-session removal pass
never runs. -/
theorem C9_broadcast_spec :
    (∀ clients : List Server.Client,
      (∀ c ∈ clients, c.closed = false → c.sendOk = true) →
      Server.broadcast clients
        = .ok ((clients.filter (fun c => !c.closed)).map (fun c => c.cid),
               clients.filter (fun c => !c.closed))) ∧
    (∀ (pre : List Server.Client) (bad : Server.Client)
       (post : List Server.Client),
      (∀ c ∈ pre, c.closed = false → c.sendOk = true) →
      bad.closed = false → bad.sendOk = false →
      Server.broadcast (pre ++ bad :: post)
        = .error ((pre.filter (fun c => !c.closed)).map (fun c => c.cid))) := by
  constructor
  · intro clients h
    unfold Server.broadcast
    by_cases he : clients.isEmpty
    · have hnil : clients = [] := by
        cases clients with
        | nil => rfl
        | cons a l => simp [List.isEmpty] at he
      subst hnil
      simp
    · rw [if_neg he, Server.broadcastLoop_ok clients [] [] h]
      simp only [List.nil_append]
      have hfil : clients.filter
            (fun c => decide (c ∉ clients.filter (fun c => c.closed)))
          = clients.filter (fun c => !c.closed) := by
        apply List.filter_congr
        intro x hx
        have hmem : (x ∈ clients.filter (fun c => c.closed)) ↔ x.closed = true := by
          simp [List.mem_filter, hx]
        by_cases hxc : x.closed = true
        · simp [hmem, hxc]
        · simp [hmem, hxc]
      rw [hfil]
  · intro pre bad post h hb hs
    unfold Server.broadcast
    rw [if_neg (by simp), Server.broadcastLoop_err pre bad post [] [] h hb hs]
    simp

/-- Witness for C9's amended theorem: one closed and one live session;
the live one receives the payload, the closed one is removed. -/
theorem C9_broadcast_spec_witness :
    Server.broadcast [{ cid := 1, closed := true, sendOk := true },
                      { cid := 2, closed := false, sendOk := true }]
      = .ok ([2], [{ cid := 2, closed := false, sendOk := true }]) :=
  C9_broadcast_spec.1
    [{ cid := 1, closed := true, sendOk := true },
     { cid := 2, closed := false, sendOk := true }] (by decide)

namespace Server

/-- The spec's formula for an actor's post-update energy before the
surplus/deficit branches:
`max(0, energy + (growth + speed) + nutrients/10 − max(0, acidity − defense))`,
written exactly as the spec states it (to be compared against
`tickBacteria`, which is translated from the code). -/
noncomputable def specEnergy (n a : ℝ) (b : Bacteria) : ℝ :=
  max 0 (b.energy + ((b.traits "growth" : ℝ) + (b.traits "speed" : ℝ))
    + n / 10 - max 0 (a - (b.traits "defense" : ℝ)))

end Server

/-- C6: the per-tick world update increments the tick, recomputes
`nutrients = max(10, 60 + 15·sin(tick/10))` and
`acidity = max(0, 10 + 4·cos(tick/12))` from the new tick alone, and maps
every bacterium through the energy/population update of the spec
(`energy = max(0, energy + (growth+speed) + nutrients/10 − max(0, acidity−defense))`,
then the surplus branch `population += 1, energy −= 30` when
energy > 100, and the deficit branch `population = max(1, population−1),
energy += 10` when energy < 5); the environment values are a
deterministic function of the tick alone, so two worlds at the same tick
get identical environment values. -/
theorem C6_update_world_deterministic :
    (∀ w : Server.World,
      (Server.update_world w).tick = w.tick + 1 ∧
      (Server.update_world w).nutrients
        = max 10 (60 + 15 * Real.sin (((w.tick + 1 : Nat) : ℝ) / 10)) ∧
      (Server.update_world w).acidity
        = max 0 (10 + 4 * Real.cos (((w.tick + 1 : Nat) : ℝ) / 12)) ∧
      (Server.update_world w).bacteria
        = w.bacteria.map (fun kb => (kb.1,
            Server.tickBacteria (Server.update_world w).nutrients
              (Server.update_world w).acidity kb.2))) ∧
    (∀ (n a : ℝ) (b : Server.Bacteria),
      (Server.specEnergy n a b > 100 →
        (Server.tickBacteria n a b).energy = Server.specEnergy n a b - 30 ∧
        (Server.tickBacteria n a b).population = b.population + 1) ∧
      (¬ Server.specEnergy n a b > 100 → Server.specEnergy n a b < 5 →
        (Server.tickBacteria n a b).energy = Server.specEnergy n a b + 10 ∧
        (Server.tickBacteria n a b).population = max 1 (b.population - 1)) ∧
      (¬ Server.specEnergy n a b > 100 → ¬ Server.specEnergy n a b < 5 →
        (Server.tickBacteria n a b).energy = Server.specEnergy n a b ∧
        (Server.tickBacteria n a b).population = b.population)) ∧
    (∀ w1 w2 : Server.World, w1.tick = w2.tick →
      (Server.update_world w1).nutrients = (Server.update_world w2).nutrients ∧
      (Server.update_world w1).acidity = (Server.update_world w2).acidity) := by
  refine ⟨?_, ?_, ?_⟩
  · intro w
    refine ⟨rfl, ?_, ?_, ?_⟩
    · show max 10 (60 + Real.sin (((w.tick + 1 : Nat) : ℝ) / 10) * 15) = _
      congr 1
      ring
    · show max 0 (10 + Real.cos (((w.tick + 1 : Nat) : ℝ) / 12) * 4) = _
      congr 1
      ring
    · rfl
  · intro n a b
    have hE : max 0 (b.energy + (((b.traits "growth" : ℝ) + (b.traits "speed" : ℝ))
        + n / 10 - max 0 (a - (b.traits "defense" : ℝ)))) = Server.specEnergy n a b := by
      unfold Server.specEnergy
      congr 1
      ring
    simp only [Server.tickBacteria, hE]
    refine ⟨?_, ?_, ?_⟩
    · intro h
      have h5 : ¬ Server.specEnergy n a b - 30 < 5 := by linarith
      simp [h, h5]
    · intro h h5
      simp [h, h5]
    · intro h h5
      simp [h, h5]
  · intro w1 w2 h
    constructor
    · show max 10 (60 + Real.sin (((w1.tick + 1 : Nat) : ℝ) / 10) * 15)
        = max 10 (60 + Real.sin (((w2.tick + 1 : Nat) : ℝ) / 10) * 15)
      rw [h]
    · show max 0 (10 + Real.cos (((w1.tick + 1 : Nat) : ℝ) / 12) * 4)
        = max 0 (10 + Real.cos (((w2.tick + 1 : Nat) : ℝ) / 12) * 4)
      rw [h]

/-- Witness for C6 at a concrete world: one bacterium at tick 0; the
environment of the updated world agrees with an identical world's, and
the no-branch energy equation holds for concrete environment values. -/
theorem C6_update_world_deterministic_witness :
    ((Server.update_world Server.initWorld).nutrients
      = (Server.update_world Server.initWorld).nutrients ∧
     (Server.update_world Server.initWorld).acidity
      = (Server.update_world Server.initWorld).acidity) ∧
    (Server.update_world Server.initWorld).tick = Server.initWorld.tick + 1 :=
  ⟨C6_update_world_deterministic.2.2 Server.initWorld Server.initWorld rfl,
   (C6_update_world_deterministic.1 Server.initWorld).1⟩

namespace App

theorem damage_targets_hist : ∀ (tids : List String) (rnd : Nat → Nat × Nat)
    (i : Nat) (s : GridState), (damage_targets tids rnd i s).hist = s.hist := by
  intro tids
  induction tids with
  | nil =>
    intro rnd i s
    rfl
  | cons tid rest ih =>
    intro rnd i s
    cases hg : pget s.players tid with
    | none =>
      simp only [damage_targets, hg]
      exact ih rnd (i + 1) s
    | some t =>
      simp only [damage_targets, hg]
      rw [ih rnd (i + 1) _]
      split_ifs <;> rfl

theorem handle_connect_hist (s : GridState) (req : Option String) (fresh : String)
    (rx ry : Nat) (bd : Nat → BotDraw) :
    ((handle_connect s req fresh rx ry bd).1).hist = s.hist := by
  simp only [handle_connect, ensure_bots_running]
  split_ifs <;> rfl

theorem handle_disconnect_hist (s : GridState) (pid? : Option String) :
    ((handle_disconnect s pid?).1).hist = s.hist := by
  cases hp : truthy pid? with
  | none => simp [handle_disconnect, hp]
  | some pid =>
    cases hg : pget s.players pid with
    | none => simp [handle_disconnect, hp, hg]
    | some p => simp [handle_disconnect, hp, hg]

theorem handle_move_hist (s : GridState) (pid? dir? : Option String) :
    ((handle_move s pid? dir?).1).hist = s.hist := by
  cases hp : truthy pid? with
  | none => simp [handle_move, hp]
  | some pid =>
    cases hd : truthy dir? with
    | none => simp [handle_move, hp, hd]
    | some dir =>
      cases hg : pget s.players pid with
      | none => simp [handle_move, hp, hd, hg]
      | some p => simp [handle_move, hp, hd, hg]

theorem handle_attack_hist (s : GridState) (pid? : Option String)
    (rnd : Nat → Nat × Nat) : ((handle_attack s pid? rnd).1).hist = s.hist := by
  cases hp : truthy pid? with
  | none => simp [handle_attack, hp]
  | some pid =>
    cases hg : pget s.players pid with
    | none => simp [handle_attack, hp, hg]
    | some atk =>
      simp only [handle_attack, hp, hg]
      exact damage_targets_hist _ rnd 0 s

theorem bot_tick_hist (s : GridState) (dirs : Nat → String)
    (rnd : Nat → Nat → Nat × Nat) : ((bot_tick s dirs rnd).1).hist = s.hist := by
  simp only [bot_tick]
  cases h : (s.players.filter (fun p => p.is_bot)).map (fun p => p.player_id) with
  | nil => rfl
  | cons a l => rfl

end App

/-- C10: every per-mutation count of the global mutation histogram is
monotonically non-decreasing across every grid operation (connect,
disconnect, mutate, move, attack, bot tick); in particular `disconnect`
removes the actor and applies `global_biomass = max(0, gb − biomass)`
while leaving the histogram untouched, so the histogram can still count
mutations of actors no longer present in any snapshot. -/
theorem C10_histogram_monotone :
    (∀ (c : App.GCmd) (s : App.GridState) (m : String),
      App.hget s.hist m ≤ App.hget ((App.gstep c s).1).hist m) ∧
    (∀ (s : App.GridState) (pid : String) (p : App.PlayerState),
      pid ≠ "" → (s.players.map (fun q => q.player_id)).Nodup →
      App.pget s.players pid = some p →
      ((App.handle_disconnect s (some pid)).1).hist = s.hist ∧
      ((App.handle_disconnect s (some pid)).1).global_biomass
        = max 0 (s.global_biomass - p.biomass) ∧
      App.pget ((App.handle_disconnect s (some pid)).1).players pid = none) := by
  constructor
  · intro c s m
    cases c with
    | connect req fresh rx ry bd =>
      show App.hget s.hist m ≤
        App.hget ((App.handle_connect s req fresh rx ry bd).1).hist m
      rw [App.handle_connect_hist]
    | disconnect pid? =>
      show App.hget s.hist m ≤ App.hget ((App.handle_disconnect s pid?).1).hist m
      rw [App.handle_disconnect_hist]
    | mutate pid? mu? =>
      show App.hget s.hist m ≤ App.hget ((App.handle_mutate s pid? mu?).1).hist m
      cases hp : App.truthy pid? with
      | none => simp [App.handle_mutate, hp]
      | some pid =>
        cases hm : App.truthy mu? with
        | none => simp [App.handle_mutate, hp, hm]
        | some mu =>
          cases hg : App.pget s.players pid with
          | none => simp [App.handle_mutate, hp, hm, hg]
          | some p =>
            by_cases hmem : mu ∈ p.mutations
            · simp [App.handle_mutate, hp, hm, hg, hmem]
            · simp only [App.handle_mutate, hp, hm, hg, if_neg hmem]
              rw [App.hget_hbump]
              exact Nat.le_add_right _ _
    | move pid? dir? =>
      show App.hget s.hist m ≤ App.hget ((App.handle_move s pid? dir?).1).hist m
      rw [App.handle_move_hist]
    | attack pid? rnd =>
      show App.hget s.hist m ≤ App.hget ((App.handle_attack s pid? rnd).1).hist m
      rw [App.handle_attack_hist]
    | botTick dirs rnd =>
      show App.hget s.hist m ≤ App.hget ((App.bot_tick s dirs rnd).1).hist m
      rw [App.bot_tick_hist]
  · intro s pid p hpid hnd hg
    have hstep : (App.handle_disconnect s (some pid)).1
        = { s with players := App.premove s.players pid,
                   playersCount := (App.premove s.players pid).length,
                   global_biomass := max 0 (s.global_biomass - p.biomass) } := by
      simp [App.handle_disconnect, App.truthy, hpid, hg]
    rw [hstep]
    exact ⟨rfl, rfl, App.pget_premove_self hnd⟩

/-- Witness for C10's disconnect conjunct at the concrete fixture. -/
theorem C10_histogram_monotone_witness :
    ((App.handle_disconnect App.stateA5 (some "A")).1).hist = App.stateA5.hist ∧
    ((App.handle_disconnect App.stateA5 (some "A")).1).global_biomass
      = max 0 (App.stateA5.global_biomass - 5) ∧
    App.pget ((App.handle_disconnect App.stateA5 (some "A")).1).players "A"
      = none :=
  C10_histogram_monotone.2 App.stateA5 "A"
    { player_id := "A", mutations := ["x"], biomass := 5, hp := 12, x := 3, y := 3 }
    (by decide) (by decide) (by decide)

namespace App

/-- The per-actor part of the resource invariant: health and biomass are
non-negative. -/
def PInv (p : PlayerState) : Prop := 0 ≤ p.hp ∧ 0 ≤ p.biomass

theorem forall_pset {P : PlayerState → Prop} {l : List PlayerState}
    {v : PlayerState} (hl : ∀ p ∈ l, P p) (hv : P v) : ∀ p ∈ pset l v, P p := by
  intro p hp
  rcases mem_pset hp with h | h
  · exact hl p h
  · exact h ▸ hv

theorem forall_premove {P : PlayerState → Prop} {l : List PlayerState}
    {pid : String} (hl : ∀ p ∈ l, P p) : ∀ p ∈ premove l pid, P p :=
  fun p hp => hl p (mem_premove hp)

theorem damage_targets_inv : ∀ (tids : List String) (rnd : Nat → Nat × Nat)
    (i : Nat) (s : GridState), (∀ p ∈ s.players, PInv p) →
    0 ≤ s.global_biomass →
    (∀ p ∈ (damage_targets tids rnd i s).players, PInv p) ∧
    0 ≤ (damage_targets tids rnd i s).global_biomass := by
  intro tids
  induction tids with
  | nil =>
    intro rnd i s h1 h2
    exact ⟨h1, h2⟩
  | cons tid rest ih =>
    intro rnd i s h1 h2
    cases hg : pget s.players tid with
    | none =>
      simp only [damage_targets, hg]
      exact ih rnd (i + 1) s h1 h2
    | some t =>
      simp only [damage_targets, hg]
      by_cases hd : ({ t with hp := t.hp - 2 } : PlayerState).hp ≤ 0
      · rw [if_pos hd]
        exact ih rnd (i + 1) _
          (forall_pset h1 ⟨by norm_num [respawn], (h1 t (pget_mem hg)).2⟩)
          (le_max_left _ _)
      · rw [if_neg hd]
        exact ih rnd (i + 1) _
          (forall_pset h1 ⟨by omega, (h1 t (pget_mem hg)).2⟩) h2

theorem bot_damage_forall : ∀ (tids : List String) (rnd : Nat → Nat × Nat)
    (i : Nat) (l : List PlayerState), (∀ p ∈ l, PInv p) →
    ∀ p ∈ bot_damage tids rnd i l, PInv p := by
  intro tids
  induction tids with
  | nil =>
    intro rnd i l hl
    simpa [bot_damage] using hl
  | cons tid rest ih =>
    intro rnd i l hl
    cases hg : pget l tid with
    | none =>
      simp only [bot_damage, hg]
      exact ih rnd (i + 1) l hl
    | some t =>
      simp only [bot_damage, hg]
      by_cases hbot : t.is_bot = true
      · rw [if_pos hbot]
        exact ih rnd (i + 1) l hl
      · rw [if_neg hbot]
        by_cases hd : ({ t with hp := t.hp - 1 } : PlayerState).hp ≤ 0
        · rw [if_pos hd]
          exact ih rnd (i + 1) _
            (forall_pset hl ⟨by norm_num [respawn], (hl t (pget_mem hg)).2⟩)
        · rw [if_neg hd]
          exact ih rnd (i + 1) _
            (forall_pset hl ⟨by omega, (hl t (pget_mem hg)).2⟩)

theorem bot_turn_forall (l : List PlayerState) (bid dir : String)
    (rnd : Nat → Nat × Nat) (hl : ∀ p ∈ l, PInv p) :
    ∀ p ∈ bot_turn l bid dir rnd, PInv p := by
  cases hg : pget l bid with
  | none =>
    simpa [bot_turn, hg] using hl
  | some bot =>
    simp only [bot_turn, hg]
    exact bot_damage_forall _ rnd 0 _
      (forall_pset hl ⟨(hl bot (pget_mem hg)).1, (hl bot (pget_mem hg)).2⟩)

theorem bot_tick_go_forall : ∀ (bids : List String) (dirs : Nat → String)
    (rnd : Nat → Nat → Nat × Nat) (i : Nat) (l : List PlayerState),
    (∀ p ∈ l, PInv p) → ∀ p ∈ bot_tick_go bids dirs rnd i l, PInv p := by
  intro bids
  induction bids with
  | nil =>
    intro dirs rnd i l hl
    simpa [bot_tick_go] using hl
  | cons bid rest ih =>
    intro dirs rnd i l hl
    simp only [bot_tick_go]
    exact ih dirs rnd (i + 1) _ (bot_turn_forall l bid (dirs i) (rnd i) hl)

theorem forall_spawn : ∀ (ds : List BotDraw) (l : List PlayerState),
    (∀ p ∈ l, PInv p) →
    ∀ p ∈ ds.foldl (fun l d => pset l
      { player_id := d.bid, is_bot := true, display_name := d.name,
        x := randpos d.rx MAP_WIDTH, y := randpos d.ry MAP_HEIGHT }) l,
      PInv p := by
  intro ds
  induction ds with
  | nil =>
    intro l hl
    simpa using hl
  | cons d rest ih =>
    intro l hl
    simp only [List.foldl_cons]
    refine ih _ (forall_pset hl ⟨?_, ?_⟩)
    · show (0 : Int) ≤ 10
      norm_num
    · show (0 : Int) ≤ 1
      norm_num

theorem ensure_bots_inv (s : GridState) (bd : Nat → BotDraw)
    (h1 : ∀ p ∈ s.players, PInv p) (h2 : 0 ≤ s.global_biomass) :
    (∀ p ∈ (ensure_bots_running s bd).players, PInv p) ∧
    0 ≤ (ensure_bots_running s bd).global_biomass := by
  unfold ensure_bots_running
  split_ifs
  · exact ⟨h1, h2⟩
  · exact ⟨forall_spawn _ _ h1, h2⟩

theorem gstep_inv (c : GCmd) (s : GridState)
    (h1 : ∀ p ∈ s.players, PInv p) (h2 : 0 ≤ s.global_biomass) :
    (∀ p ∈ ((gstep c s).1).players, PInv p) ∧
    0 ≤ ((gstep c s).1).global_biomass := by
  cases c with
  | connect req fresh rx ry bd =>
    have hgb : (0 : Int) ≤ s.global_biomass + 1 := by omega
    refine ensure_bots_inv _ bd (forall_pset h1 ⟨?_, ?_⟩) hgb
    · show (0 : Int) ≤ 10
      norm_num
    · show (0 : Int) ≤ 1
      norm_num
  | disconnect pid? =>
    cases hp : truthy pid? with
    | none =>
      simp only [gstep, handle_disconnect, hp]
      exact ⟨h1, h2⟩
    | some pid =>
      cases hg : pget s.players pid with
      | none =>
        simp only [gstep, handle_disconnect, hp, hg]
        exact ⟨h1, h2⟩
      | some p =>
        simp only [gstep, handle_disconnect, hp, hg]
        exact ⟨forall_premove h1, le_max_left _ _⟩
  | mutate pid? mu? =>
    cases hp : truthy pid? with
    | none =>
      simp only [gstep, handle_mutate, hp]
      exact ⟨h1, h2⟩
    | some pid =>
      cases hm : truthy mu? with
      | none =>
        simp only [gstep, handle_mutate, hp, hm]
        exact ⟨h1, h2⟩
      | some mu =>
        cases hg : pget s.players pid with
        | none =>
          simp only [gstep, handle_mutate, hp, hm, hg]
          exact ⟨h1, h2⟩
        | some p =>
          by_cases hmem : mu ∈ p.mutations
          · simp only [gstep, handle_mutate, hp, hm, hg, if_pos hmem]
            exact ⟨h1, h2⟩
          · simp only [gstep, handle_mutate, hp, hm, hg, if_neg hmem]
            have hpv := h1 p (pget_mem hg)
            refine ⟨forall_pset h1 ⟨?_, ?_⟩, ?_⟩
            · show (0 : Int) ≤ min 20 (p.hp + 1)
              rcases hpv with ⟨ha, _⟩
              omega
            · show (0 : Int) ≤ p.biomass + 1
              rcases hpv with ⟨_, hb⟩
              omega
            · show (0 : Int) ≤ s.global_biomass + 1
              omega
  | move pid? dir? =>
    cases hp : truthy pid? with
    | none =>
      simp only [gstep, handle_move, hp]
      exact ⟨h1, h2⟩
    | some pid =>
      cases hd : truthy dir? with
      | none =>
        simp only [gstep, handle_move, hp, hd]
        exact ⟨h1, h2⟩
      | some dir =>
        cases hg : pget s.players pid with
        | none =>
          simp only [gstep, handle_move, hp, hd, hg]
          exact ⟨h1, h2⟩
        | some p =>
          simp only [gstep, handle_move, hp, hd, hg]
          have hpv := h1 p (pget_mem hg)
          exact ⟨forall_pset h1 ⟨hpv.1, hpv.2⟩, h2⟩
  | attack pid? rnd =>
    cases hp : truthy pid? with
    | none =>
      simp only [gstep, handle_attack, hp]
      exact ⟨h1, h2⟩
    | some pid =>
      cases hg : pget s.players pid with
      | none =>
        simp only [gstep, handle_attack, hp, hg]
        exact ⟨h1, h2⟩
      | some atk =>
        simp only [gstep, handle_attack, hp, hg]
        exact damage_targets_inv _ rnd 0 s h1 h2
  | botTick dirs rnd =>
    simp only [gstep, bot_tick]
    cases hb : (s.players.filter (fun p => p.is_bot)).map (fun p => p.player_id) with
    | nil => exact ⟨h1, h2⟩
    | cons a l =>
      exact ⟨bot_tick_go_forall _ dirs rnd 0 _ h1, h2⟩

theorem runGrid_inv : ∀ (cmds : List GCmd) (s : GridState),
    (∀ p ∈ s.players, PInv p) → 0 ≤ s.global_biomass →
    (∀ p ∈ (runGrid cmds s).players, PInv p) ∧
    0 ≤ (runGrid cmds s).global_biomass := by
  intro cmds
  induction cmds with
  | nil =>
    intro s h1 h2
    exact ⟨h1, h2⟩
  | cons c rest ih =>
    intro s h1 h2
    obtain ⟨h1', h2'⟩ := gstep_inv c s h1 h2
    exact ih _ h1' h2'

end App

namespace Server

theorem bget_mem : ∀ {l : List (String × Bacteria)} {id : String} {b : Bacteria},
    bget l id = some b → (id, b) ∈ l := by
  intro l
  induction l with
  | nil =>
    intro id b h
    simp [bget] at h
  | cons kv rest ih =>
    intro id b h
    obtain ⟨k, v⟩ := kv
    by_cases hk : k = id
    · subst hk
      simp [bget] at h
      subst h
      exact List.mem_cons_self _ _
    · simp [bget, hk] at h
      exact List.mem_cons_of_mem _ (ih h)

theorem mem_bset : ∀ {l : List (String × Bacteria)} {id : String} {v : Bacteria}
    {q : String × Bacteria}, q ∈ bset l id v → q ∈ l ∨ q.2 = v := by
  intro l
  induction l with
  | nil =>
    intro id v q h
    simp [bset] at h
    subst h
    exact Or.inr rfl
  | cons kv rest ih =>
    intro id v q h
    obtain ⟨k, w⟩ := kv
    by_cases hk : k = id
    · simp [bset, hk] at h
      rcases h with h | h
      · subst h
        exact Or.inr rfl
      · exact Or.inl (List.mem_cons_of_mem _ h)
    · simp [bset, hk] at h
      rcases h with h | h
      · exact Or.inl (h ▸ List.mem_cons_self _ _)
      · rcases ih h with h2 | h2
        · exact Or.inl (List.mem_cons_of_mem _ h2)
        · exact Or.inr h2

theorem mem_bremove : ∀ {l : List (String × Bacteria)} {id : String}
    {q : String × Bacteria}, q ∈ bremove l id → q ∈ l := by
  intro l
  induction l with
  | nil =>
    intro id q h
    simp [bremove] at h
  | cons kv rest ih =>
    intro id q h
    obtain ⟨k, w⟩ := kv
    by_cases hk : k = id
    · simp [bremove, hk] at h
      exact List.mem_cons_of_mem _ h
    · simp [bremove, hk] at h
      rcases h with h | h
      · exact h ▸ List.mem_cons_self _ _
      · exact List.mem_cons_of_mem _ (ih h)

theorem apply_evolution_resources (b : Bacteria) (e : String) :
    (apply_evolution b e).energy = b.energy ∧
    (apply_evolution b e).population = b.population := by
  cases ht : EVOLUTION_TREE e with
  | none => simp [apply_evolution, ht]
  | some effects =>
    by_cases hmem : e ∈ b.evolution
    · simp [apply_evolution, ht, hmem]
    · simp [apply_evolution, ht, hmem]

theorem energy_branches_nonneg (e1 : ℝ) (h : 0 ≤ e1) :
    0 ≤ (if (if e1 > 100 then e1 - 30 else e1) < 5
         then (if e1 > 100 then e1 - 30 else e1) + 10
         else (if e1 > 100 then e1 - 30 else e1)) := by
  split_ifs <;> linarith

theorem population_branches (e1 : ℝ) (p : Int) (h : 1 ≤ p) :
    1 ≤ (if (if e1 > 100 then e1 - 30 else e1) < 5
         then max 1 ((if e1 > 100 then p + 1 else p) - 1)
         else (if e1 > 100 then p + 1 else p)) := by
  split_ifs <;> first | exact le_max_left _ _ | omega

theorem tickBacteria_energy_nonneg (n a : ℝ) (b : Bacteria) :
    0 ≤ (tickBacteria n a b).energy := by
  simp only [tickBacteria]
  exact energy_branches_nonneg _ (le_max_left _ _)

theorem tickBacteria_population (n a : ℝ) (b : Bacteria)
    (h : 1 ≤ b.population) : 1 ≤ (tickBacteria n a b).population := by
  simp only [tickBacteria]
  exact population_branches _ _ h

/-- The colony resource invariant: every bacterium has non-negative
energy and population at least 1. -/
def ColonyInv (w : World) : Prop :=
  ∀ kb ∈ w.bacteria, 0 ≤ kb.2.energy ∧ 1 ≤ kb.2.population

theorem cstep_inv (c : CCmd) (w : World) (h : ColonyInv w) :
    ColonyInv (cstep c w) := by
  cases c with
  | join id =>
    intro kb hm
    rcases mem_bset hm with h2 | h2
    · exact h kb h2
    · rw [h2]
      constructor
      · show (0 : ℝ) ≤ 50
        norm_num
      · show (1 : Int) ≤ 1
        norm_num
  | select id eid =>
    cases he : App.truthy eid with
    | none =>
      simpa [cstep, he] using h
    | some e =>
      cases hg : bget w.bacteria id with
      | none =>
        simpa [cstep, he, hg] using h
      | some b =>
        simp only [cstep, he, hg]
        intro kb hm
        rcases mem_bset hm with h2 | h2
        · exact h kb h2
        · rw [h2]
          obtain ⟨he1, he2⟩ := apply_evolution_resources b e
          rw [he1, he2]
          exact h (id, b) (bget_mem hg)
  | leave id =>
    intro kb hm
    exact h kb (mem_bremove hm)
  | tick =>
    intro kb hm
    simp only [cstep, update_world, List.mem_map] at hm
    obtain ⟨kb0, hm0, heq⟩ := hm
    constructor
    · rw [← heq]
      exact tickBacteria_energy_nonneg _ _ _
    · rw [← heq]
      exact tickBacteria_population _ _ _ (h kb0 hm0).2

theorem runColony_inv : ∀ (cmds : List CCmd) (w : World),
    ColonyInv w → ColonyInv (runColony cmds w) := by
  intro cmds
  induction cmds with
  | nil =>
    intro w h
    exact h
  | cons c rest ih =>
    intro w h
    exact ih _ (cstep_inv c w h)

end Server

/-- C2: across every sequence of commands and ticks from the initial
state, every grid actor's health and biomass (and the global biomass
total) are non-negative, and every colony bacterium's energy is
non-negative with population at least 1 — each decrement that could
underflow is clamped (`max(0, ·)`, `max(1, ·)`) or replaced by a respawn. -/
theorem C2_resources_never_negative :
    (∀ cmds : List App.GCmd,
      (∀ p ∈ (App.runGrid cmds App.initGrid).players, 0 ≤ p.hp ∧ 0 ≤ p.biomass) ∧
      0 ≤ (App.runGrid cmds App.initGrid).global_biomass) ∧
    (∀ cmds : List Server.CCmd,
      ∀ kb ∈ (Server.runColony cmds Server.initWorld).bacteria,
        0 ≤ kb.2.energy ∧ 1 ≤ kb.2.population) := by
  constructor
  · intro cmds
    exact App.runGrid_inv cmds App.initGrid (by intro p hp; simp [App.initGrid] at hp)
      (by norm_num [App.initGrid])
  · intro cmds
    exact Server.runColony_inv cmds Server.initWorld
      (by intro kb hm; simp [Server.initWorld] at hm)

/-- Witness for C2 at a concrete run: after a single `connect`, the
joined player is present with health 10 ≥ 0 and biomass 1 ≥ 0. -/
theorem C2_resources_never_negative_witness :
    ({ player_id := "A", x := 3, y := 3 } : App.PlayerState)
      ∈ (App.runGrid [App.GCmd.connect (some "A") "f" 3 3 App.botDrawFix]
          App.initGrid).players ∧
    (0 ≤ ({ player_id := "A", x := 3, y := 3 } : App.PlayerState).hp ∧
     0 ≤ ({ player_id := "A", x := 3, y := 3 } : App.PlayerState).biomass) :=
  ⟨by decide,
   (C2_resources_never_negative.1
      [App.GCmd.connect (some "A") "f" 3 3 App.botDrawFix]).1
     { player_id := "A", x := 3, y := 3 } (by decide)⟩

namespace App

theorem randpos_bounds (r n : Nat) (h : 0 < n) :
    0 ≤ randpos r n ∧ randpos r n < (n : Int) := by
  unfold randpos
  constructor
  · exact Int.natCast_nonneg _
  · exact_mod_cast Nat.mod_lt r h

theorem damage_targets_frame : ∀ (tids : List String) (rnd : Nat → Nat × Nat)
    (i : Nat) (s : GridState) (tid : String), tid ∉ tids →
    pget (damage_targets tids rnd i s).players tid = pget s.players tid := by
  intro tids
  induction tids with
  | nil =>
    intro rnd i s tid h
    rfl
  | cons tid0 rest ih =>
    intro rnd i s tid h
    have hne : tid ≠ tid0 := fun he => h (he ▸ List.mem_cons_self _ _)
    have hrest : tid ∉ rest := fun hr => h (List.mem_cons_of_mem _ hr)
    cases hg : pget s.players tid0 with
    | none =>
      simp only [damage_targets, hg]
      exact ih rnd (i + 1) s tid hrest
    | some t =>
      have hid : t.player_id = tid0 := pget_eq_id hg
      simp only [damage_targets, hg]
      by_cases hd : ({ t with hp := t.hp - 2 } : PlayerState).hp ≤ 0
      · rw [if_pos hd, ih rnd (i + 1) _ tid hrest]
        exact pget_pset_ne _ (fun he => hne (he.trans hid))
      · rw [if_neg hd, ih rnd (i + 1) _ tid hrest]
        exact pget_pset_ne _ (fun he => hne (he.trans hid))

theorem damage_targets_hit : ∀ (tids : List String) (rnd : Nat → Nat × Nat)
    (i : Nat) (s : GridState) (tid : String) (t : PlayerState),
    tids.Nodup → tid ∈ tids → pget s.players tid = some t →
    ∃ r : Nat × Nat, pget (damage_targets tids rnd i s).players tid
      = some (if t.hp - 2 ≤ 0
              then respawn { t with hp := t.hp - 2 } r.1 r.2
              else { t with hp := t.hp - 2 }) := by
  intro tids
  induction tids with
  | nil =>
    intro rnd i s tid t hnd hmem hg
    simp at hmem
  | cons tid0 rest ih =>
    intro rnd i s tid t hnd hmem hg
    rw [List.nodup_cons] at hnd
    rcases List.mem_cons.mp hmem with he | hin
    · subst he
      simp only [damage_targets, hg]
      have hid : t.player_id = tid := pget_eq_id hg
      by_cases hd : ({ t with hp := t.hp - 2 } : PlayerState).hp ≤ 0
      · refine ⟨rnd i, ?_⟩
        rw [if_pos hd, damage_targets_frame rest rnd (i + 1) _ tid hnd.1,
          if_pos (show t.hp - 2 ≤ 0 from hd)]
        exact pget_pset_of_id _ hid
      · refine ⟨(0, 0), ?_⟩
        rw [if_neg hd, damage_targets_frame rest rnd (i + 1) _ tid hnd.1,
          if_neg (show ¬ t.hp - 2 ≤ 0 from hd)]
        exact pget_pset_of_id _ hid
    · have hne : tid ≠ tid0 := fun he => hnd.1 (he ▸ hin)
      cases hg0 : pget s.players tid0 with
      | none =>
        simp only [damage_targets, hg0]
        exact ih rnd (i + 1) s tid t hnd.2 hin hg
      | some t0 =>
        have hid0 : t0.player_id = tid0 := pget_eq_id hg0
        simp only [damage_targets, hg0]
        by_cases hd : ({ t0 with hp := t0.hp - 2 } : PlayerState).hp ≤ 0
        · rw [if_pos hd]
          refine ih rnd (i + 1) _ tid t hnd.2 hin ?_
          show pget (pset s.players
            (respawn { t0 with hp := t0.hp - 2 } (rnd i).1 (rnd i).2)) tid = some t
          have hv : tid ≠ (respawn { t0 with hp := t0.hp - 2 }
              (rnd i).1 (rnd i).2).player_id :=
            fun he => hne (he.trans hid0)
          rw [pget_pset_ne _ hv]
          exact hg
        · rw [if_neg hd]
          refine ih rnd (i + 1) _ tid t hnd.2 hin ?_
          show pget (pset s.players { t0 with hp := t0.hp - 2 }) tid = some t
          have hv : tid ≠ ({ t0 with hp := t0.hp - 2 } : PlayerState).player_id :=
            fun he => hne (he.trans hid0)
          rw [pget_pset_ne _ hv]
          exact hg

/-- Whether processing target `tid` in the attack loop kills it (its hp
before the hit, read in state `s`, is at most 2). -/
def deadFlag (s : GridState) (tid : String) : Bool :=
  match pget s.players tid with
  | some t => decide (t.hp - 2 ≤ 0)
  | none => false

/-- `n` iterations of the source's kill accounting
`global_biomass = max(0, global_biomass - 1)`. -/
def decFloor (gb : Int) : Nat → Int
  | 0 => gb
  | n + 1 => decFloor (max 0 (gb - 1)) n

theorem damage_targets_gb : ∀ (tids : List String) (rnd : Nat → Nat × Nat)
    (i : Nat) (s : GridState), tids.Nodup →
    (damage_targets tids rnd i s).global_biomass
      = decFloor s.global_biomass (tids.countP (deadFlag s)) := by
  intro tids
  induction tids with
  | nil =>
    intro rnd i s hnd
    rfl
  | cons tid0 rest ih =>
    intro rnd i s hnd
    rw [List.nodup_cons] at hnd
    cases hg : pget s.players tid0 with
    | none =>
      simp only [damage_targets, hg]
      rw [ih rnd (i + 1) s hnd.2]
      have hf : deadFlag s tid0 = false := by simp [deadFlag, hg]
      rw [List.countP_cons, hf]
      simp
    | some t =>
      have hid : t.player_id = tid0 := pget_eq_id hg
      have hcong : ∀ s' : GridState,
          (∀ x ∈ rest, pget s'.players x = pget s.players x) →
          rest.countP (deadFlag s') = rest.countP (deadFlag s) := by
        intro s' hx
        apply List.countP_congr
        intro x hxm
        simp [deadFlag, hx x hxm]
      by_cases hd : ({ t with hp := t.hp - 2 } : PlayerState).hp ≤ 0
      · simp only [damage_targets, hg]
        rw [if_pos hd, ih rnd (i + 1) _ hnd.2]
        have hfr : ∀ x ∈ rest, pget (pset s.players
            (respawn { t with hp := t.hp - 2 } (rnd i).1 (rnd i).2)) x
            = pget s.players x := by
          intro x hxm
          exact pget_pset_ne _ (fun he => hnd.1 ((he.trans hid) ▸ hxm))
        rw [hcong _ hfr]
        have hf : deadFlag s tid0 = true := by
          simp only [deadFlag, hg, decide_eq_true_eq]
          exact hd
        rw [List.countP_cons, hf]
        simp only [if_true, decFloor]
      · simp only [damage_targets, hg]
        rw [if_neg hd, ih rnd (i + 1) _ hnd.2]
        have hfr : ∀ x ∈ rest, pget (pset s.players { t with hp := t.hp - 2 }) x
            = pget s.players x := by
          intro x hxm
          exact pget_pset_ne _ (fun he => hnd.1 ((he.trans hid) ▸ hxm))
        rw [hcong _ hfr]
        have hf : deadFlag s tid0 = false := by
          simp only [deadFlag, hg, decide_eq_false_iff_not]
          exact hd
        rw [List.countP_cons, hf]
        simp

end App

namespace App

/-- Fixture for attack scenarios: attacker `A` at (3, 3), target `B`
with 1 hp at (4, 4) (Chebyshev distance 1). -/
def stateAB : GridState :=
  { players := [{ player_id := "A", x := 3, y := 3 },
                { player_id := "B", hp := 1, x := 4, y := 4 }],
    playersCount := 2, hist := [], global_biomass := 5, bots_started := true }

/-- Fixture: one player at 19 hp, to exhibit the 20 cap of `mutate`. -/
def stateHp19 : GridState :=
  { players := [{ player_id := "A", hp := 19, x := 3, y := 3 }],
    playersCount := 1, hist := [], global_biomass := 1, bots_started := true }

/-- Fixture: one player already at the 20 hp cap. -/
def stateHp20 : GridState :=
  { players := [{ player_id := "A", hp := 20, x := 3, y := 3 }],
    playersCount := 1, hist := [], global_biomass := 1, bots_started := true }

end App

/-- C5 counterexample: `A` attacks the adjacent `B` (1 hp), which dies
and respawns with health 10; but the bound `mutate` clamps health to is
20 (hp 19 becomes 20 and hp 20 stays 20 under `hp = min(20, hp + 1)`).
So "health reset to the maxHealth bound (the same bound `mutate` clamps
`health += 1` to)" is false: the respawn value is 10, not 20. -/
theorem C5_respawn_health_is_ten_not_twenty :
    (App.pget ((App.handle_attack App.stateAB (some "A")
        (fun _ => (6, 6))).1).players "B").map (fun p => p.hp) = some 10 ∧
    (App.pget ((App.handle_mutate App.stateHp19 (some "A")
        (some "m")).1).players "A").map (fun p => p.hp) = some 20 ∧
    (App.pget ((App.handle_mutate App.stateHp20 (some "A")
        (some "m")).1).players "A").map (fun p => p.hp) = some 20 ∧
    (10 : Int) ≠ 20 :=
  ⟨by decide, by decide, by decide, by decide⟩

/-- C5 amended: for an `attack` by a known actor (over a state with
distinct actor ids), every *other* actor within Chebyshev distance 1
takes exactly 2 damage; a target whose health drops to ≤ 0 is respawned
with health reset to 10 (the spawn value — not the 20 cap that `mutate`
clamps to) at a re-randomized in-bounds position, keeping its id,
mutations and biomass; a surviving target only loses the 2 hp; and the
global biomass total is decremented by 1, floored at 0, once per killed
target. -/
theorem C5_attack_spec :
    ∀ (s : App.GridState) (pid : String) (rnd : Nat → Nat × Nat)
      (atk : App.PlayerState), pid ≠ "" →
      (s.players.map (fun q => q.player_id)).Nodup →
      App.pget s.players pid = some atk →
      (∀ t ∈ s.players, t.player_id ≠ atk.player_id →
        (t.x - atk.x).natAbs ≤ 1 → (t.y - atk.y).natAbs ≤ 1 →
        ∃ t', App.pget ((App.handle_attack s (some pid) rnd).1).players
            t.player_id = some t' ∧
          (t.hp - 2 ≤ 0 →
            t'.hp = 10 ∧ 0 ≤ t'.x ∧ t'.x < 12 ∧ 0 ≤ t'.y ∧ t'.y < 8 ∧
            t'.player_id = t.player_id ∧ t'.mutations = t.mutations ∧
            t'.biomass = t.biomass) ∧
          (¬ t.hp - 2 ≤ 0 → t' = { t with hp := t.hp - 2 })) ∧
      ((App.handle_attack s (some pid) rnd).1).global_biomass
        = App.decFloor s.global_biomass
            ((App.find_targets s.players atk).countP (App.deadFlag s)) := by
  intro s pid rnd atk hpid hnd hg
  have hs' : (App.handle_attack s (some pid) rnd).1
      = App.damage_targets (App.find_targets s.players atk) rnd 0 s := by
    simp [App.handle_attack, App.truthy, hpid, hg]
  have htnd : (App.find_targets s.players atk).Nodup := by
    unfold App.find_targets
    exact List.Nodup.sublist
      (List.Sublist.map _ (List.filter_sublist s.players)) hnd
  constructor
  · intro t hmem hne hcx hcy
    have hmemt : t.player_id ∈ App.find_targets s.players atk := by
      unfold App.find_targets
      apply List.mem_map_of_mem
      rw [List.mem_filter]
      refine ⟨hmem, ?_⟩
      simp only [decide_eq_true_eq]
      exact ⟨hne, hcx, hcy⟩
    have hgt : App.pget s.players t.player_id = some t :=
      App.pget_of_mem_nodup hnd hmem
    obtain ⟨r, hr⟩ := App.damage_targets_hit (App.find_targets s.players atk)
      rnd 0 s t.player_id t htnd hmemt hgt
    rw [← hs'] at hr
    by_cases hdt : t.hp - 2 ≤ 0
    · rw [if_pos hdt] at hr
      refine ⟨_, hr, fun _ => ?_, fun hcon => absurd hdt hcon⟩
      obtain ⟨hx1, hx2⟩ := App.randpos_bounds r.1 App.MAP_WIDTH (by norm_num [App.MAP_WIDTH])
      obtain ⟨hy1, hy2⟩ := App.randpos_bounds r.2 App.MAP_HEIGHT (by norm_num [App.MAP_HEIGHT])
      refine ⟨rfl, hx1, ?_, hy1, ?_, rfl, rfl, rfl⟩
      · exact lt_of_lt_of_le hx2 (by norm_num [App.MAP_WIDTH])
      · exact lt_of_lt_of_le hy2 (by norm_num [App.MAP_HEIGHT])
    · rw [if_neg hdt] at hr
      exact ⟨_, hr, fun hcon => absurd hcon hdt, fun _ => rfl⟩
  · rw [hs']
    exact App.damage_targets_gb _ rnd 0 s htnd

/-- Witness for C5's amended theorem at the fixture: attacking kills the
1-hp neighbour `B`, and the global biomass follows the floored decrement
fold. -/
theorem C5_attack_spec_witness :
    ((App.handle_attack App.stateAB (some "A") (fun _ => (6, 6))).1).global_biomass
      = App.decFloor App.stateAB.global_biomass
          ((App.find_targets App.stateAB.players
              { player_id := "A", x := 3, y := 3 }).countP
            (App.deadFlag App.stateAB)) :=
  (C5_attack_spec App.stateAB "A" (fun _ => (6, 6))
    { player_id := "A", x := 3, y := 3 } (by decide) (by decide) (by decide)).2
